import Mathlib

/-!
Shallow embedding of the `react-parcel` scaffolder (src/index.ts and the
create-app module) and proofs about its behaviour.

Modelling conventions:
* File-system and process effects are recorded as an explicit trace of
  `Event`s; the environment (`Env`) supplies the outcomes the real world
  would supply (access-check results, directory listings, child-process
  exit codes, the platform line ending `os.EOL`).
* Node's `path` module is an external library; it is abstracted as a
  `Paths` record of functions (`resolve`, `dirname`, `basename`, `join`).
* The external `validate-npm-package-name` library is abstracted as a
  function `String → ValidationResult` matching its documented result
  shape (`validForNewPackages`, optional `errors`, optional `warnings`).
* `process.exit(n)` terminates the run: it is modelled by returning the
  trace accumulated so far together with `Outcome.exited n`.
* JavaScript truthiness is modelled where the source relies on it; in
  particular `!arr` for an array value `arr` is always `false`, because
  every array object is truthy (see `jsArrayFalsy`).
-/

namespace ReactParcel

/-- Observable side effects of a run, in order of occurrence. -/
inductive Event where
  | accessCheck (dir : String)
  | reportProblem (msg : String)
  | mkdirRec (dir : String)
  | readDir (dir : String)
  | chdir (dir : String)
  | writeFile (path : String) (contents : String)
  | spawn (cmd : String) (args : List String)
  | copyTemplates (dest : String)
  deriving DecidableEq

/-- Terminal result of a run: normal success, `process.exit(code)`, or a
promise rejection carrying the failed command line. -/
inductive Outcome where
  | success
  | exited (code : Nat)
  | rejected (command : String)
  deriving DecidableEq

/-- Abstraction of Node's `path` module (external library). -/
structure Paths where
  resolve : String → String
  dirname : String → String
  basename : String → String
  join : String → String → String

/-- Outcomes the surrounding world supplies to one run. `access dir` is the
result of `fs.promises.access(dir, W_OK)`, `listing dir` the result of
`fs.readdirSync(dir)`, `exits i` the exit code of the i-th spawned child
process, `eol` the platform line ending `os.EOL`. -/
structure Env where
  access : String → Except String Unit
  listing : String → List String
  exits : Nat → Int
  eol : String

/-- Truthiness of a JavaScript array value under `!`: an array object is
always truthy (even when empty), so `!fs.readdirSync(root)` is always
`false`. -/
def jsArrayFalsy (_xs : List String) : Bool := false

/-- Embedding of `isWriteable`: `fs.promises.access` either succeeds or
throws; the `try`/`catch` maps success to `true` and any failure to
`false`, so the function itself never throws. -/
def isWriteable (accessResult : Except String Unit) : Bool :=
  match accessResult with
  | Except.ok _ => true
  | Except.error _ => false

/-- Rejection value of `install`: `reject({ command: ... })`. -/
structure InstallFailure where
  command : String
  deriving DecidableEq

/-- Argument list assembled by `install`: empty when `dependencies` is
null or empty (the `dependencies && dependencies.length` guard), otherwise
`install --save-exact` then `--save-dev`/`--save` then the packages. -/
def installArgs (dependencies : Option (List String)) (devDependencies : Bool) :
    List String :=
  match dependencies with
  | none => []
  | some deps =>
    if deps.length ≠ 0 then
      "install" :: "--save-exact" ::
        (if devDependencies then "--save-dev" else "--save") :: deps
    else []

/-- Command line reported on failure: `npm ${args.join(' ')}`. -/
def installCommand (args : List String) : String :=
  "npm " ++ String.intercalate " " args

/-- Embedding of `install`: assembles the argument list, spawns the child
(`spawn('npm', args, ...)`, recorded as an event), and settles the promise
from the child's exit code: rejects with the command line on a non-zero
code, resolves otherwise. -/
def install (dependencies : Option (List String)) (devDependencies : Bool)
    (exitCode : Int) : List Event × Except InstallFailure Unit :=
  let args := installArgs dependencies devDependencies
  ([Event.spawn "npm" args],
    if exitCode ≠ 0 then Except.error ⟨installCommand args⟩ else Except.ok ())

/-- Embedding of the `rename` callback passed to `cpy`: a switch on the
exact base filename with fallthrough for `gitignore`/`eslintrc`. -/
def rename (name : String) : String :=
  if name = "gitignore" ∨ name = "eslintrc" then "." ++ name
  else if name = "README-template.md" then "README.md"
  else name

mutual

/-- Small JSON value universe covering the manifest object literal. -/
inductive Json where
  | str (s : String)
  | bool (b : Bool)
  | obj (fields : JsonFields)

/-- Ordered field list of a JSON object. -/
inductive JsonFields where
  | nil
  | cons (key : String) (value : Json) (rest : JsonFields)

end

/-- Escaping applied by `JSON.stringify` to the characters that can occur
here: the double quote and the backslash. -/
def jsonEscapeChar (c : Char) : String :=
  if c = '"' then "\\\""
  else if c = '\\' then "\\\\"
  else String.singleton c

/-- Escape a string for inclusion in a JSON string literal. -/
def jsonEscape (s : String) : String :=
  String.join (s.toList.map jsonEscapeChar)

/-- Two spaces of indentation per level, as in `JSON.stringify(v, null, 2)`. -/
def indentOf (level : Nat) : String :=
  String.join (List.replicate level "  ")

mutual

/-- Embedding of `JSON.stringify(v, null, 2)` at a given nesting level. -/
def stringifyAt (level : Nat) : Json → String
  | Json.str s => "\"" ++ jsonEscape s ++ "\""
  | Json.bool b => if b then "true" else "false"
  | Json.obj JsonFields.nil => "\x7b\x7d"
  | Json.obj (JsonFields.cons k v rest) =>
      "\x7b\n" ++ stringifyFields (level + 1) (JsonFields.cons k v rest) ++
        "\n" ++ indentOf level ++ "\x7d"

/-- Serialize a field list, one `"key": value` per line, comma-separated. -/
def stringifyFields (level : Nat) : JsonFields → String
  | JsonFields.nil => ""
  | JsonFields.cons k v JsonFields.nil =>
      indentOf level ++ "\"" ++ jsonEscape k ++ "\": " ++ stringifyAt level v
  | JsonFields.cons k v (JsonFields.cons k2 v2 rest) =>
      indentOf level ++ "\"" ++ jsonEscape k ++ "\": " ++ stringifyAt level v ++
        ",\n" ++ stringifyFields level (JsonFields.cons k2 v2 rest)

end

/-- The `packageJson` object literal built by `createApp`. -/
def packageJsonObj (appName : String) : Json :=
  Json.obj
    (JsonFields.cons "name" (Json.str appName)
      (JsonFields.cons "version" (Json.str "1.0.0")
        (JsonFields.cons "private" (Json.bool true)
          (JsonFields.cons "scripts" (Json.obj
            (JsonFields.cons "start"
              (Json.str "parcel \"./public/index.html\" --open -p 3000")
              (JsonFields.cons "build"
                (Json.str "parcel build \"./public/index.html\" --out-dir build")
                JsonFields.nil)))
            JsonFields.nil))))

/-- Contents written to `package.json`:
`JSON.stringify(packageJson, null, 2) + os.EOL`. -/
def manifestText (appName : String) (eol : String) : String :=
  stringifyAt 0 (packageJsonObj appName) ++ eol

/-- Default dependencies of `createApp`. -/
def dependencies : List String := ["react", "react-dom"]

/-- Default devDependencies of `createApp`. -/
def devDependencies : List String := ["@babel/preset-env", "@babel/preset-react", "parcel"]

/-- Embedding of `createApp`: writability check on the parent, recursive
mkdir, the (ineffective) emptiness check on `fs.readdirSync`, chdir,
manifest write, the two awaited installs, then the template copy. Console
logging and the `cdpath` computation carry no effects and are omitted. -/
def createApp (paths : Paths) (env : Env) (appPath : String) :
    List Event × Outcome :=
  let root := paths.resolve appPath
  if isWriteable (env.access (paths.dirname root)) = false then
    ([Event.accessCheck (paths.dirname root)], Outcome.exited 1)
  else
    let appName := paths.basename root
    let made := [Event.accessCheck (paths.dirname root),
      Event.mkdirRec root, Event.readDir root]
    if jsArrayFalsy (env.listing root) = true then
      (made, Outcome.exited 1)
    else
      let written := made ++ [Event.chdir root,
        Event.writeFile (paths.join root "package.json")
          (manifestText appName env.eol)]
      let step1 :=
        if dependencies.length ≠ 0 then
          install (some dependencies) false (env.exits 0)
        else ([], Except.ok ())
      match step1.2 with
      | Except.error f => (written ++ step1.1, Outcome.rejected f.command)
      | Except.ok _ =>
        let step2 :=
          if devDependencies.length ≠ 0 then
            install (some devDependencies) true (env.exits 1)
          else ([], Except.ok ())
        match step2.2 with
        | Except.error f =>
            (written ++ step1.1 ++ step2.1, Outcome.rejected f.command)
        | Except.ok _ =>
            (written ++ step1.1 ++ step2.1 ++ [Event.copyTemplates root],
              Outcome.success)

/-- Result shape of the external `validate-npm-package-name` library. -/
structure ValidationResult where
  validForNewPackages : Bool
  errors : Option (List String)
  warnings : Option (List String)

/-- Result of `validateNpmName`. -/
structure NameCheck where
  valid : Bool
  problems : Option (List String)
  deriving DecidableEq

/-- Embedding of `validateNpmName`: passes the library verdict through,
concatenating `errors || []` with `warnings || []` on failure. -/
def validateNpmName (validateProjectName : String → ValidationResult)
    (name : String) : NameCheck :=
  let nameValidation := validateProjectName name
  if nameValidation.validForNewPackages then
    { valid := true, problems := none }
  else
    { valid := false,
      problems := some (nameValidation.errors.getD [] ++
        nameValidation.warnings.getD []) }

/-- Embedding of JavaScript `String.prototype.trim`: strip leading and
trailing whitespace. -/
def jsTrim (s : String) : String :=
  String.mk
    ((s.toList.dropWhile Char.isWhitespace).reverse.dropWhile
      Char.isWhitespace).reverse

/-- Embedding of `run` in src/index.ts: trims the positional argument,
exits 1 when it is empty (the `!projectPath` falsiness test), resolves it,
validates the basename as an npm package name (reporting every problem and
exiting 1 on failure), and otherwise hands over to `createApp`. -/
def run (paths : Paths) (validateProjectName : String → ValidationResult)
    (env : Env) (projectPathArg : String) : List Event × Outcome :=
  let projectPath := jsTrim projectPathArg
  if projectPath = "" then ([], Outcome.exited 1)
  else
    let resolvedProjectPath := paths.resolve projectPath
    let projectName := paths.basename resolvedProjectPath
    let check := validateNpmName validateProjectName projectName
    if check.valid = false then
      ((check.problems.getD []).map Event.reportProblem, Outcome.exited 1)
    else
      createApp paths env resolvedProjectPath

/-- Effect of one event on file contents: only `writeFile` changes the
mapping, and it replaces whatever was there (Node `writeFileSync` with the
default `w` flag truncates). -/
def applyEvent (fsFiles : String → Option String) (e : Event) :
    String → Option String :=
  match e with
  | Event.writeFile p c => fun q => if q = p then some c else fsFiles q
  | _ => fsFiles

/-- Fold a trace over an initial file state. -/
def applyEvents (fsFiles : String → Option String) (events : List Event) :
    String → Option String :=
  events.foldl applyEvent fsFiles

/-- The `writeFile` events of a trace. -/
def writeEvents (events : List Event) : List Event :=
  events.filter fun e =>
    match e with
    | Event.writeFile _ _ => true
    | _ => false

/-- The complete event sequence of a fully successful `createApp` run. -/
def fullTrace (paths : Paths) (env : Env) (appPath : String) : List Event :=
  let root := paths.resolve appPath
  [Event.accessCheck (paths.dirname root),
   Event.mkdirRec root,
   Event.readDir root,
   Event.chdir root,
   Event.writeFile (paths.join root "package.json")
     (manifestText (paths.basename root) env.eol),
   Event.spawn "npm" (installArgs (some dependencies) false),
   Event.spawn "npm" (installArgs (some devDependencies) true),
   Event.copyTemplates root]

/-- Concrete path functions used to instantiate the abstract `path`
module in witnesses. -/
def demoPaths : Paths where
  resolve := fun p => p
  dirname := fun _ => "/"
  basename := fun p => p
  join := fun a b => a ++ "/" ++ b

/-- Environment in which every external effect succeeds. -/
def demoEnv : Env where
  access := fun _ => Except.ok ()
  listing := fun _ => []
  exits := fun _ => 0
  eol := "\n"

/-- Environment whose writability check is denied. -/
def deniedEnv : Env where
  access := fun _ => Except.error "EACCES"
  listing := fun _ => []
  exits := fun _ => 0
  eol := "\n"

/-- Environment whose spawned child processes exit with code 2. -/
def failEnv : Env where
  access := fun _ => Except.ok ()
  listing := fun _ => []
  exits := fun _ => 2
  eol := "\n"

/-- Library result used in witnesses: a name rejected with one error and
one warning. -/
def demoValidate : String → ValidationResult := fun _ =>
  { validForNewPackages := false,
    errors := some ["name cannot contain capital letters"],
    warnings := some ["name is too long"] }

/-- Events that are not `writeFile` leave the file state untouched;
mapped `reportProblem` events in particular. -/
theorem applyEvents_map_reportProblem (msgs : List String)
    (fsFiles : String → Option String) :
    applyEvents fsFiles (msgs.map Event.reportProblem) = fsFiles := by
  induction msgs generalizing fsFiles with
  | nil => rfl
  | cons m ms ih => simpa [applyEvents, applyEvent] using ih fsFiles

/-- Complete case analysis of `createApp`: the run is cut short at the
writability check, after the first failing install, after the second
failing install, or completes; in each case the trace is the
corresponding initial segment of `fullTrace`. -/
theorem createApp_shape (paths : Paths) (env : Env) (appPath : String) :
    createApp paths env appPath =
      (if isWriteable (env.access (paths.dirname (paths.resolve appPath))) = false then
        ((fullTrace paths env appPath).take 1, Outcome.exited 1)
      else if env.exits 0 ≠ 0 then
        ((fullTrace paths env appPath).take 6,
          Outcome.rejected (installCommand (installArgs (some dependencies) false)))
      else if env.exits 1 ≠ 0 then
        ((fullTrace paths env appPath).take 7,
          Outcome.rejected (installCommand (installArgs (some devDependencies) true)))
      else (fullTrace paths env appPath, Outcome.success)) := by
  by_cases hw : isWriteable (env.access (paths.dirname (paths.resolve appPath))) = false <;>
    by_cases h0 : env.exits 0 = 0 <;>
      by_cases h1 : env.exits 1 = 0 <;>
        simp [createApp, fullTrace, install, installArgs, installCommand,
          jsArrayFalsy, dependencies, devDependencies, hw, h0, h1]

/-- The full trace has eight events. -/
theorem fullTrace_length (paths : Paths) (env : Env) (appPath : String) :
    (fullTrace paths env appPath).length = 8 := by
  simp [fullTrace]

/-- A proper initial segment of the full trace is not the full trace. -/
theorem take_ne_fullTrace (paths : Paths) (env : Env) (appPath : String)
    (n : Nat) (hn : n < 8) :
    (fullTrace paths env appPath).take n ≠ fullTrace paths env appPath := by
  intro h
  have hlen := congrArg List.length h
  rw [List.length_take, fullTrace_length] at hlen
  omega

/-- C3: a source file named exactly `gitignore` is copied as `.gitignore`,
`eslintrc` as `.eslintrc`, `README-template.md` as `README.md`, and every
other base filename is kept unchanged; matching is on the exact base
filename only. -/
theorem rename_rules (s : String) (h1 : s ≠ "gitignore") (h2 : s ≠ "eslintrc")
    (h3 : s ≠ "README-template.md") :
    rename "gitignore" = ".gitignore" ∧
    rename "eslintrc" = ".eslintrc" ∧
    rename "README-template.md" = "README.md" ∧
    rename s = s := by
  refine ⟨by decide, by decide, by decide, ?_⟩
  simp [rename, h1, h2, h3]

/-- Witness for C3: a name that merely contains `gitignore` is kept, while
the exact name `gitignore` is renamed. -/
theorem rename_rules_witness :
    rename "gitignore.txt" = "gitignore.txt" ∧ rename "gitignore" = ".gitignore" := by
  have h := rename_rules "gitignore.txt" (by decide) (by decide) (by decide)
  exact ⟨h.2.2.2, h.1⟩

/-- C10: the rename rule table is idempotent — applying it to an already
renamed name returns that name unchanged, since none of its outputs is
itself a match key. -/
theorem rename_idempotent (s : String) : rename (rename s) = rename s := by
  by_cases h1 : s = "gitignore"
  · subst h1; decide
  by_cases h2 : s = "eslintrc"
  · subst h2; decide
  by_cases h3 : s = "README-template.md"
  · subst h3; decide
  have hs : rename s = s := by simp [rename, h1, h2, h3]
  rw [hs, hs]

/-- C1 counterexample: with a null or empty package list, `install` still
spawns a child process (the spawn is unconditional in the source), so the
claimed "no external process" mode does not exist; with a non-zero exit it
does not even resolve. -/
theorem install_empty_spawns :
    install none false 0 = ([Event.spawn "npm" []], Except.ok ()) ∧
    install (some []) false 2 =
      ([Event.spawn "npm" []], Except.error ⟨"npm "⟩) :=
  ⟨rfl, rfl⟩

/-- C1 (amended): with a null or empty package list, `install` spawns the
package manager exactly once with an empty argument list, resolves if that
child exits 0, and rejects with command `npm ` (trailing space) otherwise. -/
theorem install_empty_behavior (deps : Option (List String))
    (devFlag : Bool) (code : Int)
    (h : deps = none ∨ deps = some []) :
    install deps devFlag code =
      ([Event.spawn "npm" []],
        if code ≠ 0 then Except.error ⟨"npm "⟩ else Except.ok ()) := by
  have hc : installCommand [] = "npm " := rfl
  rcases h with h | h <;> subst h <;> simp [install, installArgs, hc]

/-- Witness for C1 (amended) at `deps = none`, exit code 0. -/
theorem install_empty_behavior_witness :
    install none false 0 = ([Event.spawn "npm" []], Except.ok ()) :=
  install_empty_behavior none false 0 (Or.inl rfl)

/-- C5 counterexample: for an empty package list and exit code 2, the
rejection's command field is `npm ` (just the executable and a space), not
the executable followed by `install --save-exact` and a save flag. -/
theorem install_command_empty_case :
    install (some []) false 2 =
      ([Event.spawn "npm" []], Except.error ⟨"npm "⟩) ∧
    ("npm " : String) ≠ installCommand ["install", "--save-exact", "--save"] :=
  ⟨rfl, by decide⟩

/-- C5 (amended): for a non-empty package list, a non-zero exit rejects
with the exact assembled command line — the executable, `install
--save-exact`, the save flag, then the packages, joined by single spaces —
and exit code 0 resolves with no value; for an empty list the command
collapses to `npm ` with no arguments. -/
theorem install_exit_spec (deps : List String) (devFlag : Bool) (code : Int)
    (h : deps ≠ []) :
    install (some deps) devFlag code =
      ([Event.spawn "npm" ("install" :: "--save-exact" ::
          (if devFlag then "--save-dev" else "--save") :: deps)],
        if code ≠ 0 then
          Except.error ⟨"npm " ++ String.intercalate " "
            ("install" :: "--save-exact" ::
              (if devFlag then "--save-dev" else "--save") :: deps)⟩
        else Except.ok ()) := by
  have hlen : deps.length ≠ 0 := fun hc => h (List.length_eq_zero.mp hc)
  simp [install, installArgs, installCommand, hlen]

/-- Witness for C5 (amended): the runtime set with a failing child gives
the fully assembled command line. -/
theorem install_exit_spec_witness :
    install (some ["react", "react-dom"]) false 2 =
      ([Event.spawn "npm"
          ["install", "--save-exact", "--save", "react", "react-dom"]],
        Except.error ⟨"npm install --save-exact --save react react-dom"⟩) :=
  install_exit_spec ["react", "react-dom"] false 2 (by decide)

/-- C2: every run's trace is an initial segment of the fixed stage
sequence (writability check, mkdir, readdir, chdir, manifest write,
runtime install, development install, template copy), so stages execute in
that order and nothing runs after a failed stage; the trace is the whole
sequence exactly when the run succeeds; and the development install is
spawned only if the runtime install's child exited 0. -/
theorem createApp_stage_order (paths : Paths) (env : Env) (appPath : String) :
    (∃ rest, (createApp paths env appPath).1 ++ rest = fullTrace paths env appPath) ∧
    ((createApp paths env appPath).2 = Outcome.success ↔
      (createApp paths env appPath).1 = fullTrace paths env appPath) ∧
    (Event.spawn "npm" (installArgs (some devDependencies) true) ∈
        (createApp paths env appPath).1 →
      env.exits 0 = 0) := by
  have hshape := createApp_shape paths env appPath
  by_cases hw : isWriteable (env.access (paths.dirname (paths.resolve appPath))) = false
  · rw [hshape, if_pos hw]
    refine ⟨⟨(fullTrace paths env appPath).drop 1, List.take_append_drop 1 _⟩, ?_, ?_⟩
    · exact iff_of_false (by simp) (take_ne_fullTrace paths env appPath 1 (by omega))
    · intro hmem
      simp [fullTrace] at hmem
  · rw [hshape, if_neg hw]
    by_cases h0 : env.exits 0 = 0
    · have h0n : ¬ env.exits 0 ≠ 0 := by simp [h0]
      rw [if_neg h0n]
      by_cases h1 : env.exits 1 = 0
      · have h1n : ¬ env.exits 1 ≠ 0 := by simp [h1]
        rw [if_neg h1n]
        exact ⟨⟨[], List.append_nil _⟩, iff_of_true rfl rfl, fun _ => h0⟩
      · rw [if_pos h1]
        refine ⟨⟨(fullTrace paths env appPath).drop 7, List.take_append_drop 7 _⟩,
          iff_of_false (by simp) (take_ne_fullTrace paths env appPath 7 (by omega)),
          fun _ => h0⟩
    · rw [if_pos h0]
      refine ⟨⟨(fullTrace paths env appPath).drop 6, List.take_append_drop 6 _⟩,
        iff_of_false (by simp) (take_ne_fullTrace paths env appPath 6 (by omega)), ?_⟩
      intro hmem
      simp [fullTrace, installArgs, dependencies, devDependencies] at hmem

/-- Witness for C2: a fully successful run realizes the whole stage
sequence. -/
theorem createApp_stage_order_witness :
    (createApp demoPaths demoEnv "my-app").1 = fullTrace demoPaths demoEnv "my-app" := by
  have h := createApp_stage_order demoPaths demoEnv "my-app"
  exact h.2.1.mp rfl

set_option maxRecDepth 10000 in
/-- C4: whenever the run gets past the writability check, exactly one file
write happens, to `<root>/package.json`, whose contents are the 2-space
indented serialization of the fixed manifest object followed by the
platform line ending; the write replaces any pre-existing contents at that
path; and for the project name `my-app` with line ending `\n` the
serialization is the expected concrete JSON text. -/
theorem createApp_manifest (paths : Paths) (env : Env) (appPath : String)
    (h : isWriteable (env.access (paths.dirname (paths.resolve appPath))) = true) :
    writeEvents (createApp paths env appPath).1 =
      [Event.writeFile (paths.join (paths.resolve appPath) "package.json")
        (manifestText (paths.basename (paths.resolve appPath)) env.eol)] ∧
    (∀ fsFiles : String → Option String,
      applyEvents fsFiles (createApp paths env appPath).1
        (paths.join (paths.resolve appPath) "package.json") =
        some (manifestText (paths.basename (paths.resolve appPath)) env.eol)) ∧
    manifestText "my-app" "\n" =
      "\x7b\n  \"name\": \"my-app\",\n  \"version\": \"1.0.0\",\n  \"private\": true,\n  \"scripts\": \x7b\n    \"start\": \"parcel \\\"./public/index.html\\\" --open -p 3000\",\n    \"build\": \"parcel build \\\"./public/index.html\\\" --out-dir build\"\n  \x7d\n\x7d\n" := by
  have hw : ¬ (isWriteable (env.access (paths.dirname (paths.resolve appPath))) = false) := by
    simp [h]
  have hshape := createApp_shape paths env appPath
  rw [hshape, if_neg hw]
  refine ?_
  by_cases h0 : env.exits 0 = 0
  · have h0n : ¬ env.exits 0 ≠ 0 := by simp [h0]
    rw [if_neg h0n]
    by_cases h1 : env.exits 1 = 0
    · have h1n : ¬ env.exits 1 ≠ 0 := by simp [h1]
      rw [if_neg h1n]
      refine ⟨?_, ?_, by decide⟩
      · simp [fullTrace, writeEvents]
      · intro fsFiles
        simp [fullTrace, applyEvents, applyEvent]
    · rw [if_pos h1]
      refine ⟨?_, ?_, by decide⟩
      · simp [fullTrace, writeEvents]
      · intro fsFiles
        simp [fullTrace, applyEvents, applyEvent]
  · rw [if_pos h0]
    refine ⟨?_, ?_, by decide⟩
    · simp [fullTrace, writeEvents]
    · intro fsFiles
      simp [fullTrace, applyEvents, applyEvent]

/-- Witness for C4: the concrete successful run writes the manifest to
`my-app/package.json`. -/
theorem createApp_manifest_witness :
    writeEvents (createApp demoPaths demoEnv "my-app").1 =
      [Event.writeFile "my-app/package.json" (manifestText "my-app" "\n")] := by
  have h := createApp_manifest demoPaths demoEnv "my-app" rfl
  exact h.1

/-- C6: `validateNpmName` answers `valid := true` exactly when the naming
library accepts the name for new packages; otherwise it answers
`valid := false` with the problems sequence equal to every reported error
followed by every reported warning — non-empty whenever the library
reports at least one violation (its documented behaviour on rejection). -/
theorem validateNpmName_spec (validateProjectName : String → ValidationResult)
    (name : String)
    (hlib : (validateProjectName name).validForNewPackages = false →
      (validateProjectName name).errors.getD [] ++
        (validateProjectName name).warnings.getD [] ≠ []) :
    ((validateProjectName name).validForNewPackages = true →
      validateNpmName validateProjectName name =
        { valid := true, problems := none }) ∧
    ((validateProjectName name).validForNewPackages = false →
      validateNpmName validateProjectName name =
        { valid := false,
          problems := some ((validateProjectName name).errors.getD [] ++
            (validateProjectName name).warnings.getD []) } ∧
      (validateNpmName validateProjectName name).problems.getD [] ≠ []) := by
  constructor
  · intro h
    simp [validateNpmName, h]
  · intro h
    have heq : validateNpmName validateProjectName name =
        { valid := false,
          problems := some ((validateProjectName name).errors.getD [] ++
            (validateProjectName name).warnings.getD []) } := by
      simp [validateNpmName, h]
    refine ⟨heq, ?_⟩
    rw [heq]
    simpa using hlib h

/-- Witness for C6: a concrete rejected name collects the error and the
warning, in that order. -/
theorem validateNpmName_spec_witness :
    validateNpmName demoValidate "NODE_MODULES" =
      { valid := false,
        problems := some ["name cannot contain capital letters",
          "name is too long"] } := by
  have h := (validateNpmName_spec demoValidate "NODE_MODULES"
    (fun _ => by decide)).2 rfl
  exact h.1

/-- C7: `isWriteable` never throws — an access failure yields `false` and
success yields `true`; the check is made on the parent (`dirname`) of the
resolved target and is the first observable action of every run; and when
it yields `false` the run stops with exit status 1 having performed no
file-state mutation. -/
theorem isWriteable_spec (paths : Paths) (env : Env) (appPath : String)
    (err : String) :
    isWriteable (Except.error err) = false ∧
    isWriteable (Except.ok ()) = true ∧
    (createApp paths env appPath).1.head? =
      some (Event.accessCheck (paths.dirname (paths.resolve appPath))) ∧
    (isWriteable (env.access (paths.dirname (paths.resolve appPath))) = false →
      createApp paths env appPath =
        ([Event.accessCheck (paths.dirname (paths.resolve appPath))],
          Outcome.exited 1) ∧
      ∀ fsFiles : String → Option String,
        applyEvents fsFiles (createApp paths env appPath).1 = fsFiles) := by
  have hshape := createApp_shape paths env appPath
  refine ⟨rfl, rfl, ?_, ?_⟩
  · rw [hshape]
    by_cases hw : isWriteable (env.access (paths.dirname (paths.resolve appPath))) = false
    · rw [if_pos hw]; simp [fullTrace]
    · rw [if_neg hw]
      by_cases h0 : env.exits 0 = 0
      · have h0n : ¬ env.exits 0 ≠ 0 := by simp [h0]
        rw [if_neg h0n]
        by_cases h1 : env.exits 1 = 0
        · have h1n : ¬ env.exits 1 ≠ 0 := by simp [h1]
          rw [if_neg h1n]; simp [fullTrace]
        · rw [if_pos h1]; simp [fullTrace]
      · rw [if_pos h0]; simp [fullTrace]
  · intro hw
    have heq : createApp paths env appPath =
        ([Event.accessCheck (paths.dirname (paths.resolve appPath))],
          Outcome.exited 1) := by
      rw [hshape, if_pos hw]; simp [fullTrace]
    refine ⟨heq, fun fsFiles => ?_⟩
    rw [heq]
    rfl

/-- Witness for C7: with a denied access check the run is exactly the
check followed by exit 1. -/
theorem isWriteable_spec_witness :
    createApp demoPaths deniedEnv "my-app" =
      ([Event.accessCheck "/"], Outcome.exited 1) := by
  have h := isWriteable_spec demoPaths deniedEnv "my-app" "EACCES"
  exact (h.2.2.2 rfl).1

/-- C8: when the resolved project name is rejected by the naming rules,
`run` reports every violation in order (errors then warnings) and exits
with status 1, without executing any directory creation or other
file-state mutation. -/
theorem run_invalid_name (paths : Paths)
    (validateProjectName : String → ValidationResult) (env : Env)
    (arg : String) (hArg : jsTrim arg ≠ "")
    (hInvalid : (validateProjectName
      (paths.basename (paths.resolve (jsTrim arg)))).validForNewPackages = false) :
    run paths validateProjectName env arg =
      (((validateProjectName (paths.basename (paths.resolve (jsTrim arg)))).errors.getD [] ++
        (validateProjectName (paths.basename (paths.resolve (jsTrim arg)))).warnings.getD []).map
          Event.reportProblem,
        Outcome.exited 1) ∧
    ∀ fsFiles : String → Option String,
      applyEvents fsFiles (run paths validateProjectName env arg).1 = fsFiles := by
  have heq : run paths validateProjectName env arg =
      (((validateProjectName (paths.basename (paths.resolve (jsTrim arg)))).errors.getD [] ++
        (validateProjectName (paths.basename (paths.resolve (jsTrim arg)))).warnings.getD []).map
          Event.reportProblem,
        Outcome.exited 1) := by
    simp [run, validateNpmName, hArg, hInvalid]
  refine ⟨heq, fun fsFiles => ?_⟩
  rw [heq]
  exact applyEvents_map_reportProblem _ fsFiles

/-- Witness for C8: a rejected concrete name produces only the two reports
and exit 1. -/
theorem run_invalid_name_witness :
    run demoPaths demoValidate demoEnv "NODE_MODULES" =
      ([Event.reportProblem "name cannot contain capital letters",
        Event.reportProblem "name is too long"], Outcome.exited 1) := by
  have h := run_invalid_name demoPaths demoValidate demoEnv "NODE_MODULES"
    (by decide) rfl
  exact h.1

/-- C9 counterexample: a run in which the freshly created directory is
empty does not halt — it continues to full success, because
`!fs.readdirSync(root)` is always false (an array value is always
truthy). -/
theorem empty_directory_no_halt :
    demoEnv.listing "my-app" = [] ∧
    (createApp demoPaths demoEnv "my-app").2 = Outcome.success :=
  ⟨rfl, rfl⟩

/-- C9 (amended): after the recursive mkdir the directory listing is read,
but the emptiness test can never fire (the negation of an array value is
always false), so the only way `createApp` ends in exit status 1 is the
earlier writability check failing. -/
theorem createApp_exit_only_writability (paths : Paths) (env : Env)
    (appPath : String)
    (h : (createApp paths env appPath).2 = Outcome.exited 1) :
    jsArrayFalsy (env.listing (paths.resolve appPath)) = false ∧
    isWriteable (env.access (paths.dirname (paths.resolve appPath))) = false := by
  refine ⟨rfl, ?_⟩
  have hshape := createApp_shape paths env appPath
  by_cases hw : isWriteable (env.access (paths.dirname (paths.resolve appPath))) = false
  · exact hw
  · exfalso
    rw [hshape, if_neg hw] at h
    by_cases h0 : env.exits 0 = 0
    · have h0n : ¬ env.exits 0 ≠ 0 := by simp [h0]
      rw [if_neg h0n] at h
      by_cases h1 : env.exits 1 = 0
      · have h1n : ¬ env.exits 1 ≠ 0 := by simp [h1]
        rw [if_neg h1n] at h
        simp at h
      · rw [if_pos h1] at h
        simp at h
    · rw [if_pos h0] at h
      simp at h

/-- Witness for C9 (amended): a run that did exit 1 indeed had its
writability check denied. -/
theorem createApp_exit_only_writability_witness :
    isWriteable (deniedEnv.access "/") = false := by
  have h := createApp_exit_only_writability demoPaths deniedEnv "my-app" rfl
  exact h.2

end ReactParcel
